import Mathlib

/-!
Verification of the Tetris game engine (`src/tetris-app/src/components/TetrisGame.tsx`).

The engine is shallowly embedded: each React callback becomes a pure state
transition on an explicit `GameState`; the `setX` state updates of a callback
are applied immediately in program order.  Randomness (`Math.random`) is made
explicit: `generateBag` takes the random draws as a function `rand : Nat → Nat`,
where `rand i % (i + 1)` is the value of `Math.floor(Math.random() * (i + 1))`
(which always lies in `[0, i]`).  Timers (gravity tick, lock delay) are
abstracted into discrete engine operations; arming a timer is a no-op on the
modelled state and its firing is a separate operation.
-/

set_option maxHeartbeats 1000000

namespace TetrisGame

/-- The seven tetromino piece types. -/
inductive TetrominoType where
  | I | J | L | O | S | T | Z
deriving DecidableEq

/-- Game status enum. -/
inductive GameStatus where
  | ready | playing | paused | gameover
deriving DecidableEq

/-- A 2D position; coordinates are JS numbers, modelled as integers
(`y` may be negative above the visible board). -/
structure Position where
  x : Int
  y : Int
deriving DecidableEq

/-- The falling piece: type, rotation index and top-left anchor position. -/
structure ActivePiece where
  type : TetrominoType
  rotation : Nat
  position : Position
deriving DecidableEq

/-- A locked board cell.  The source's optional `ghost`/`fading` fields are
render-only and are never set on locked cells, so only the type is modelled. -/
structure Cell where
  type : TetrominoType
deriving DecidableEq

/-- The board: rows of optional cells (`null` = empty in the source). -/
abbrev Board : Type := List (List (Option Cell))

def BOARD_WIDTH : Nat := 10

def BOARD_HEIGHT : Nat := 20

def LINES_PER_LEVEL : Nat := 10

def COMBO_BONUS : Nat := 50

def DROP_SCORE : Nat := 2

def lineScores : List Nat := [0, 100, 300, 500, 800]

/-- Session statistics.  The score is modelled as an integer (JS numbers are
signed), so non-negativity is a provable property rather than a typing
artifact. -/
structure GameStats where
  score : Int
  level : Nat
  lines : Nat
  combo : Nat
  maxCombo : Nat
  cleared : List Nat
  tetrisCount : Nat
  hardDrops : Nat
  pieces : Nat
  playTime : Nat
deriving DecidableEq

/-- `TETROMINOES`: the rotation-state shape matrices, copied verbatim from the
source table. -/
def TETROMINOES : TetrominoType → List (List (List Nat))
  | .I =>
    [[[0, 0, 0, 0],
      [1, 1, 1, 1],
      [0, 0, 0, 0],
      [0, 0, 0, 0]],
     [[0, 0, 1, 0],
      [0, 0, 1, 0],
      [0, 0, 1, 0],
      [0, 0, 1, 0]],
     [[0, 0, 0, 0],
      [0, 0, 0, 0],
      [1, 1, 1, 1],
      [0, 0, 0, 0]],
     [[0, 1, 0, 0],
      [0, 1, 0, 0],
      [0, 1, 0, 0],
      [0, 1, 0, 0]]]
  | .J =>
    [[[1, 0, 0],
      [1, 1, 1],
      [0, 0, 0]],
     [[0, 1, 1],
      [0, 1, 0],
      [0, 1, 0]],
     [[0, 0, 0],
      [1, 1, 1],
      [0, 0, 1]],
     [[0, 1, 0],
      [0, 1, 0],
      [1, 1, 0]]]
  | .L =>
    [[[0, 0, 1],
      [1, 1, 1],
      [0, 0, 0]],
     [[0, 1, 0],
      [0, 1, 0],
      [0, 1, 1]],
     [[0, 0, 0],
      [1, 1, 1],
      [1, 0, 0]],
     [[1, 1, 0],
      [0, 1, 0],
      [0, 1, 0]]]
  | .O =>
    [[[0, 1, 1, 0],
      [0, 1, 1, 0],
      [0, 0, 0, 0],
      [0, 0, 0, 0]]]
  | .S =>
    [[[0, 1, 1],
      [1, 1, 0],
      [0, 0, 0]],
     [[0, 1, 0],
      [0, 1, 1],
      [0, 0, 1]],
     [[0, 0, 0],
      [0, 1, 1],
      [1, 1, 0]],
     [[1, 0, 0],
      [1, 1, 0],
      [0, 1, 0]]]
  | .T =>
    [[[0, 1, 0],
      [1, 1, 1],
      [0, 0, 0]],
     [[0, 1, 0],
      [0, 1, 1],
      [0, 1, 0]],
     [[0, 0, 0],
      [1, 1, 1],
      [0, 1, 0]],
     [[0, 1, 0],
      [1, 1, 0],
      [0, 1, 0]]]
  | .Z =>
    [[[1, 1, 0],
      [0, 1, 1],
      [0, 0, 0]],
     [[0, 0, 1],
      [0, 1, 1],
      [0, 1, 0]],
     [[0, 0, 0],
      [1, 1, 0],
      [0, 1, 1]],
     [[0, 1, 0],
      [1, 1, 0],
      [1, 0, 0]]]

def ALL_TETROMINOES : List TetrominoType := [.I, .J, .L, .O, .S, .T, .Z]

def createEmptyBoard : Board :=
  List.replicate BOARD_HEIGHT (List.replicate BOARD_WIDTH none)

def createInitialStats : GameStats :=
  { score := 0, level := 0, lines := 0, combo := 0, maxCombo := 0,
    cleared := [0, 0, 0, 0], tetrisCount := 0, hardDrops := 0, pieces := 0,
    playTime := 0 }

def getRotations (t : TetrominoType) : List (List (List Nat)) := TETROMINOES t

/-- Swap two positions of a list (the body of a Fisher-Yates step;
out-of-range indices leave the list unchanged, matching array semantics). -/
def listSwap {α : Type} (l : List α) (i j : Nat) : List α :=
  match l[i]?, l[j]? with
  | some a, some b => (l.set i b).set j a
  | _, _ => l

/-- `generateBag`: Fisher-Yates shuffle of the 7 types.  `rand i % (i + 1)`
models `Math.floor(Math.random() * (i + 1))`, which always lies in `[0, i]`. -/
def generateBag (rand : Nat → Nat) : List TetrominoType :=
  ([6, 5, 4, 3, 2, 1] : List Nat).foldl
    (fun bag i => listSwap bag i (rand i % (i + 1))) ALL_TETROMINOES

/-- Entry of a shape matrix; out-of-range indices read as 0 (unoccupied). -/
def matCell (m : List (List Nat)) (y x : Nat) : Nat :=
  (m.getD y []).getD x 0

/-- Board cell at integer coordinates; out-of-range reads are `none`
(JS `undefined` is falsy). -/
def cellAt (b : Board) (y x : Int) : Option Cell :=
  if 0 ≤ y ∧ 0 ≤ x then (b.getD y.toNat []).getD x.toNat none else none

/-- Write a cell; called only at in-range coordinates (writes at out-of-range
indices are dropped, which never happens on the paths the claims cover). -/
def setCell (b : Board) (y x : Int) (c : Cell) : Board :=
  b.set y.toNat ((b.getD y.toNat []).set x.toNat (some c))

/-- The shape matrix `canPlace` selects:
`rotations[(piece.rotation + rotationShift + rotations.length) % rotations.length]`.
Lean's `Int.emod` agrees with the JS `%` here because the dividend is
non-negative at every call site (`rotation ∈ [0, length)`, shift ≥ -1). -/
def pieceMatrix (piece : ActivePiece) (rotationShift : Int) : List (List Nat) :=
  let rotations := getRotations piece.type
  rotations.getD
    ((((piece.rotation : Int) + rotationShift + (rotations.length : Int)) %
      (rotations.length : Int)).toNat) []

/-- `canPlace(piece, offset, rotationShift)`: every occupied shape cell must
land in a legal, free position. -/
def canPlace (board : Board) (piece : ActivePiece) (offset : Position)
    (rotationShift : Int) : Bool :=
  let matrix := pieceMatrix piece rotationShift
  (List.range matrix.length).all fun y =>
    (List.range (matrix.getD y []).length).all fun x =>
      if matCell matrix y x = 0 then true
      else
        let boardX := piece.position.x + (x : Int) + offset.x
        let boardY := piece.position.y + (y : Int) + offset.y
        if boardX < 0 ∨ (BOARD_WIDTH : Int) ≤ boardX then false
        else if (BOARD_HEIGHT : Int) ≤ boardY then false
        else if 0 ≤ boardY ∧ (cellAt board boardY boardX).isSome then false
        else true

/-- `clearLines`: keep rows that still have an empty cell, prepend that many
fresh empty rows.  `BOARD_HEIGHT - next.length` uses truncated subtraction,
which coincides with the JS computation on boards of at most
`BOARD_HEIGHT` rows (every board the game produces has exactly 20). -/
def clearLines (boardState : Board) : Board × Nat :=
  let next := boardState.filter fun row => row.any fun cell => cell.isNone
  let clearedLines := BOARD_HEIGHT - next.length
  if clearedLines = 0 then (boardState, 0)
  else (List.replicate clearedLines (List.replicate BOARD_WIDTH none) ++ next,
        clearedLines)

/-- `updateForClear`: scoring and bookkeeping after a lock that cleared
`clearedLines` lines. -/
def updateForClear (clearedLines : Nat) (s : GameStats) : GameStats :=
  if clearedLines = 0 then { s with combo := 0 }
  else
    let points := lineScores.getD clearedLines (clearedLines * 200)
    let newCombo := s.combo + 1
    let comboBonus := if 1 < newCombo then (newCombo - 1) * COMBO_BONUS else 0
    let newLines := s.lines + clearedLines
    let newLevel := newLines / LINES_PER_LEVEL
    let newTetrisCount :=
      if clearedLines = 4 then s.tetrisCount + 1 else s.tetrisCount
    { s with
      score := s.score + ((points * (s.level + 1) : Nat) : Int) +
        ((comboBonus * (s.level + 1) : Nat) : Int),
      level := newLevel,
      lines := newLines,
      combo := newCombo,
      maxCombo := max s.maxCombo newCombo,
      cleared := s.cleared.mapIdx fun idx val =>
        if idx = clearedLines - 1 then val + 1 else val,
      tetrisCount := newTetrisCount }

/-- The full engine state (the component's `useState` cells that belong to the
game engine; render-only state such as messages and the persisted high score
is outside the model). -/
structure GameState where
  board : Board
  active : Option ActivePiece
  queue : List TetrominoType
  hold : Option TetrominoType
  hasHeld : Bool
  status : GameStatus
  stats : GameStats
deriving DecidableEq

/-- `spawnPiece(forcedType?)`.  `freshBag` is the bag `generateBag()` would
produce for the replenishment push; `fallbackType` is the first element of the
bag `generateBag()[0]` would produce if the queue were empty (`?? fallback`). -/
def spawnPiece (fallbackType : TetrominoType) (freshBag : List TetrominoType)
    (forcedType : Option TetrominoType) (g : GameState) : GameState :=
  let type := match forcedType with
    | some t => t
    | none => g.queue.headD fallbackType
  let q1 := match forcedType with
    | some _ => g.queue
    | none => g.queue.tail
  let q2 := if q1.length < 7 then q1 ++ freshBag else q1
  let matrix := (getRotations type).getD 0 []
  let width := (matrix.getD 0 []).length
  let spawnX := (BOARD_WIDTH - width) / 2
  let spawnY : Int := if type = TetrominoType.I then -1 else 0
  { g with
    queue := q2,
    active := some { type := type, rotation := 0,
                     position := { x := (spawnX : Int), y := spawnY } },
    hasHeld := false,
    stats := { g.stats with pieces := g.stats.pieces + 1 } }

/-- The top-out test of `finalizeLock`: some occupied shape cell would be
written at an absolute row < 0. -/
def lockTopOut (piece : ActivePiece) : Bool :=
  let matrix := (getRotations piece.type).getD piece.rotation []
  (List.range matrix.length).any fun y =>
    (List.range (matrix.getD y []).length).any fun x =>
      decide (matCell matrix y x ≠ 0 ∧ piece.position.y + (y : Int) < 0)

/-- `finalizeLock(piece)`: write the piece into the board (aborted, board
unchanged, on any cell with row < 0: top-out), clear lines, update stats,
spawn the next piece.  The source discovers the negative row mid-write and
returns the untouched previous board; checking first is outcome-equivalent
because distinct matrix cells map to distinct board cells and the partially
written copy is discarded. -/
def finalizeLock (fallbackType : TetrominoType) (freshBag : List TetrominoType)
    (piece : ActivePiece) (g : GameState) : GameState :=
  let matrix := (getRotations piece.type).getD piece.rotation []
  if lockTopOut piece then
    { g with active := none, status := GameStatus.gameover,
             stats := { g.stats with combo := 0 } }
  else
    let written := (List.range matrix.length).foldl (fun b y =>
      (List.range (matrix.getD y []).length).foldl (fun b2 x =>
        if matCell matrix y x ≠ 0 then
          setCell b2 (piece.position.y + (y : Int)) (piece.position.x + (x : Int))
            { type := piece.type }
        else b2) b) g.board
    let result := clearLines written
    let g2 : GameState :=
      { g with
        board := result.1
        active := none
        stats := if 0 < result.2 then updateForClear result.2 g.stats
                 else { g.stats with combo := 0 } }
    spawnPiece fallbackType freshBag none g2

/-- `dropPiece(soft, forceLock)`.  The blocked, non-forced path arms the
lock-delay timer, which is not part of the modelled state; its later firing is
`lockDelayExpire`. -/
def dropPiece (soft forceLock : Bool) (fallbackType : TetrominoType)
    (freshBag : List TetrominoType) (g : GameState) : GameState :=
  match g.active with
  | none => g
  | some active =>
    if g.status = GameStatus.playing then
      if ¬forceLock ∧ canPlace g.board active { x := 0, y := 1 } 0 = true then
        { g with
          active := some { active with
            position := { x := active.position.x + 0,
                          y := active.position.y + 1 } },
          stats := if soft then
              { g.stats with score := g.stats.score + ((DROP_SCORE : Nat) : Int) }
            else g.stats }
      else if forceLock then finalizeLock fallbackType freshBag active g
      else g
    else g

/-- The lock-delay timeout callback: lock the current piece if it is still
blocked. -/
def lockDelayExpire (fallbackType : TetrominoType)
    (freshBag : List TetrominoType) (g : GameState) : GameState :=
  match g.active with
  | none => g
  | some current =>
    if g.status = GameStatus.playing then
      if canPlace g.board current { x := 0, y := 1 } 0 = true then g
      else finalizeLock fallbackType freshBag current g
    else g

/-- One step of the `hardDrop` ghost-descent loop, with explicit fuel (the
source's `while` loop terminates because every real shape has an occupied
cell, which forces `canPlace` to fail at row ≥ `BOARD_HEIGHT`). -/
def descend (board : Board) : Nat → ActivePiece → ActivePiece
  | 0, p => p
  | fuel + 1, p =>
    if canPlace board p { x := 0, y := 1 } 0 then
      descend board fuel
        { p with position := { x := p.position.x, y := p.position.y + 1 } }
    else p

/-- Fuel that strictly over-approximates the maximal possible drop distance
(every occupied cell must stay at a row < 20 at each accepted step). -/
def dropFuel (p : ActivePiece) : Nat := (24 - p.position.y).toNat

/-- `hardDrop()`: descend to rest, award distance × 2 × 3, count the drop,
lock immediately. -/
def hardDrop (fallbackType : TetrominoType) (freshBag : List TetrominoType)
    (g : GameState) : GameState :=
  match g.active with
  | none => g
  | some active =>
    if g.status = GameStatus.playing then
      let ghost := descend g.board (dropFuel active) active
      let distance := (ghost.position.y - active.position.y).toNat
      finalizeLock fallbackType freshBag ghost
        { g with stats := { g.stats with
            score := g.stats.score + ((distance * DROP_SCORE * 3 : Nat) : Int),
            hardDrops := g.stats.hardDrops + 1 } }
    else g

/-- `movePiece(dir)`. -/
def movePiece (dir : Int) (g : GameState) : GameState :=
  match g.active with
  | none => g
  | some active =>
    if g.status = GameStatus.playing then
      if canPlace g.board active { x := dir, y := 0 } 0 then
        { g with active := some { active with
            position := { x := active.position.x + dir,
                          y := active.position.y } } }
      else g
    else g

/-- The fixed kick-offset priority list tried by `rotatePiece`. -/
def kicks : List Position :=
  [{ x := 0, y := 0 }, { x := -1, y := 0 }, { x := 1, y := 0 },
   { x := 0, y := -1 }, { x := 0, y := 1 }]

/-- `rotatePiece(dir)`: apply the first kick that fits; otherwise reject. -/
def rotatePiece (dir : Int) (g : GameState) : GameState :=
  match g.active with
  | none => g
  | some active =>
    if g.status = GameStatus.playing then
      let rotations := getRotations active.type
      let nextRotation :=
        (((active.rotation : Int) + dir + (rotations.length : Int)) %
          (rotations.length : Int)).toNat
      match kicks.find? fun kick => canPlace g.board active kick dir with
      | some kick =>
        { g with active := some { active with
            rotation := nextRotation,
            position := { x := active.position.x + kick.x,
                          y := active.position.y + kick.y } } }
      | none => g
    else g

/-- `holdPiece()`, with the callback's state updates applied in program
order: `setHasHeld(true)`, then `spawnPiece` (whose updater pops/replenishes
the queue, sets the spawned piece active and resets `hasHeld` to `false`),
then `setHold(...)`, then `setActive(null)`. -/
def holdPiece (fallbackType : TetrominoType) (freshBag : List TetrominoType)
    (g : GameState) : GameState :=
  match g.active with
  | none => g
  | some active =>
    if g.status = GameStatus.playing ∧ g.hasHeld = false then
      let g1 := { g with hasHeld := true }
      let g2 := match g.hold with
        | some h =>
          { (spawnPiece fallbackType freshBag (some h) g1) with
            hold := some active.type }
        | none =>
          spawnPiece fallbackType freshBag none
            { g1 with hold := some active.type }
      { g2 with active := none }
    else g

/-- `togglePause()`. -/
def togglePause (g : GameState) : GameState :=
  match g.status with
  | GameStatus.playing => { g with status := GameStatus.paused }
  | GameStatus.paused => { g with status := GameStatus.playing }
  | _ => g

/-- `resetGame()`: fresh board, two fresh bags with the first type popped and
spawned, stats reset to zero (with `pieces := 1`). -/
def resetGame (r1 r2 : Nat → Nat) (g : GameState) : GameState :=
  let bag := generateBag r1 ++ generateBag r2
  let firstType := bag.headD TetrominoType.I
  let rest := bag.tail
  let matrix := (getRotations firstType).getD 0 []
  let width := (matrix.getD 0 []).length
  let spawnX := (BOARD_WIDTH - width) / 2
  let spawnY : Int := if firstType = TetrominoType.I then -1 else 0
  { g with
    board := createEmptyBoard,
    active := some { type := firstType, rotation := 0,
                     position := { x := (spawnX : Int), y := spawnY } },
    queue := rest,
    hold := none,
    hasHeld := false,
    stats := { createInitialStats with pieces := 1 } }

/-- The initial component state: empty board, two concatenated fresh bags,
no active piece, status `ready`. -/
def initialState (r1 r2 : Nat → Nat) : GameState :=
  { board := createEmptyBoard,
    active := none,
    queue := generateBag r1 ++ generateBag r2,
    hold := none,
    hasHeld := false,
    status := GameStatus.ready,
    stats := createInitialStats }

/-- The discrete engine operations a session can perform (timer firings and
input commands); random draws and bags are explicit arguments. -/
inductive EngineOp where
  | moveOp (dir : Int)
  | rotateOp (dir : Int)
  | softDropOp (fallbackType : TetrominoType) (freshBag : List TetrominoType)
  | gravityOp (fallbackType : TetrominoType) (freshBag : List TetrominoType)
  | hardDropOp (fallbackType : TetrominoType) (freshBag : List TetrominoType)
  | holdOp (fallbackType : TetrominoType) (freshBag : List TetrominoType)
  | lockExpireOp (fallbackType : TetrominoType) (freshBag : List TetrominoType)
  | pauseOp

def applyOp (op : EngineOp) (g : GameState) : GameState :=
  match op with
  | .moveOp dir => movePiece dir g
  | .rotateOp dir => rotatePiece dir g
  | .softDropOp fb bag => dropPiece true false fb bag g
  | .gravityOp fb bag => dropPiece false false fb bag g
  | .hardDropOp fb bag => hardDrop fb bag g
  | .holdOp fb bag => holdPiece fb bag g
  | .lockExpireOp fb bag => lockDelayExpire fb bag g
  | .pauseOp => togglePause g

def applyOps (ops : List EngineOp) (g : GameState) : GameState :=
  ops.foldl (fun s op => applyOp op s) g

/-- Well-formed board: exactly `BOARD_HEIGHT` rows of `BOARD_WIDTH` cells. -/
def WFBoard (b : Board) : Prop :=
  b.length = BOARD_HEIGHT ∧ ∀ row ∈ b, row.length = BOARD_WIDTH

instance (b : Board) : Decidable (WFBoard b) := by
  unfold WFBoard
  exact instDecidableAnd

/-- The base line-clear award as the spec words it: 1/2/3/4 lines are worth
100/300/500/800 and 5+ lines fall back to `lines × 200`. -/
def specBase (k : Nat) : Nat :=
  if k = 1 then 100
  else if k = 2 then 300
  else if k = 3 then 500
  else if k = 4 then 800
  else k * 200

/-- The piece translated `d` rows downwards (the ghost of the hard-drop
loop after `d` accepted descents). -/
def pieceAt (p : ActivePiece) (d : Int) : ActivePiece :=
  { p with position := { x := p.position.x, y := p.position.y + d } }

/-- A concrete active T piece at its spawn position. -/
def pieceW : ActivePiece :=
  { type := TetrominoType.T, rotation := 0, position := { x := 3, y := 0 } }

/-- A concrete playing state used to instantiate theorems with hypotheses:
empty board, active T piece at its spawn position. -/
def stateW : GameState :=
  { board := createEmptyBoard,
    active := some pieceW,
    queue := ALL_TETROMINOES ++ ALL_TETROMINOES,
    hold := none,
    hasHeld := false,
    status := GameStatus.playing,
    stats := createInitialStats }

/-- A concrete board whose bottom row is fully occupied. -/
def boardFullRow : Board :=
  List.replicate 19 (List.replicate BOARD_WIDTH none) ++
    [List.replicate BOARD_WIDTH (some { type := TetrominoType.I })]

/-- A piece whose occupied cells reach above the board (top-out when locked). -/
def pieceTopOut : ActivePiece :=
  { type := TetrominoType.T, rotation := 0, position := { x := 3, y := -1 } }

/-- A concrete O piece at its spawn position. -/
def pieceO : ActivePiece :=
  { type := TetrominoType.O, rotation := 0, position := { x := 3, y := 0 } }

/-! ## Helper lemmas -/

theorem matCell_zero_of_row_le (m : List (List Nat)) (y x : Nat)
    (h : m.length ≤ y) : matCell m y x = 0 := by
  unfold matCell
  rw [List.getD_eq_default _ _ h]
  simp

theorem matCell_zero_of_col_le (m : List (List Nat)) (y x : Nat)
    (h : (m.getD y []).length ≤ x) : matCell m y x = 0 := by
  unfold matCell
  rw [List.getD_eq_default _ _ h]

theorem cellCheck_iff (c : Nat) (b1 b2 b3 b4 : Prop) [Decidable b1]
    [Decidable b2] [Decidable b3] [Decidable b4] :
    ((if c = 0 then true
      else if b1 ∨ b2 then false
      else if b3 then false
      else if b4 then false
      else true) = true) ↔ (c ≠ 0 → ¬(b1 ∨ b2 ∨ b3 ∨ b4)) := by
  split_ifs <;> simp_all
  all_goals tauto

/-- Characterization of `canPlace = true`: every occupied shape cell lands in
a legal column, above the floor, and (when on the visible board) on a free
cell. -/
theorem canPlace_true_iff (board : Board) (piece : ActivePiece)
    (offset : Position) (shift : Int) :
    canPlace board piece offset shift = true ↔
      ∀ y x : Nat, matCell (pieceMatrix piece shift) y x ≠ 0 →
        ¬(piece.position.x + (x : Int) + offset.x < 0 ∨
          (BOARD_WIDTH : Int) ≤ piece.position.x + (x : Int) + offset.x ∨
          (BOARD_HEIGHT : Int) ≤ piece.position.y + (y : Int) + offset.y ∨
          (0 ≤ piece.position.y + (y : Int) + offset.y ∧
            (cellAt board (piece.position.y + (y : Int) + offset.y)
              (piece.position.x + (x : Int) + offset.x)).isSome = true)) := by
  unfold canPlace
  simp only [List.all_eq_true, List.mem_range]
  constructor
  · intro h y x hocc
    by_cases hy : y < (pieceMatrix piece shift).length
    · by_cases hx : x < ((pieceMatrix piece shift).getD y []).length
      · have h2 := h y hy x hx
        rw [cellCheck_iff] at h2
        exact h2 hocc
      · exact absurd (matCell_zero_of_col_le _ y x (Nat.le_of_not_lt hx)) hocc
    · exact absurd (matCell_zero_of_row_le _ y x (Nat.le_of_not_lt hy)) hocc
  · intro h y _ x _
    rw [cellCheck_iff]
    exact h y x

/-! ## Claim theorems -/

/-- C1: for every board, piece, offset and rotation shift, `canPlace` returns
`false` if and only if some occupied cell of the shape matrix at the candidate
rotation lands at a column outside `[0, BOARD_WIDTH)`, at a row
`≥ BOARD_HEIGHT`, or on an occupied board cell at a row `≥ 0`; in particular
a cell at a negative row is never by itself a reason to fail, so
configurations partially above the board are accepted. -/
theorem canPlace_false_iff_bad_cell (board : Board) (piece : ActivePiece)
    (offset : Position) (shift : Int) :
    canPlace board piece offset shift = false ↔
      ∃ y x : Nat, matCell (pieceMatrix piece shift) y x ≠ 0 ∧
        (piece.position.x + (x : Int) + offset.x < 0 ∨
         (BOARD_WIDTH : Int) ≤ piece.position.x + (x : Int) + offset.x ∨
         (BOARD_HEIGHT : Int) ≤ piece.position.y + (y : Int) + offset.y ∨
         (0 ≤ piece.position.y + (y : Int) + offset.y ∧
           (cellAt board (piece.position.y + (y : Int) + offset.y)
             (piece.position.x + (x : Int) + offset.x)).isSome = true)) := by
  rw [Bool.eq_false_iff, Ne, canPlace_true_iff]
  constructor
  · intro hne
    rcases not_forall.mp hne with ⟨y, hy⟩
    rcases not_forall.mp hy with ⟨x, hx⟩
    rcases Classical.not_imp.mp hx with ⟨ha, hb⟩
    exact ⟨y, x, ha, not_not.mp hb⟩
  · rintro ⟨y, x, ha, hb⟩ hall
    exact hall y x ha hb

theorem all_isSome_eq_not_any_isNone (row : List (Option Cell)) :
    (row.all fun c => c.isSome) = !(row.any fun c => c.isNone) := by
  induction row with
  | nil => rfl
  | cons c row ih => cases c <;> simp_all

/-- C3: on a well-formed 20×10 board, line clearing removes exactly the rows
with zero empty cells, prepends that many fully-empty rows at the top,
preserves the surviving rows (with their relative order and contents, as a
`filter`), reports the number of fully-occupied rows, and keeps the board
well-formed (20 rows of 10 columns). -/
theorem clearLines_spec (b : Board) (h : WFBoard b) :
    (clearLines b).2 = (b.filter fun row => row.all fun c => c.isSome).length ∧
    (clearLines b).1 =
      List.replicate (clearLines b).2 (List.replicate BOARD_WIDTH none) ++
        (b.filter fun row => row.any fun c => c.isNone) ∧
    WFBoard (clearLines b).1 := by
  obtain ⟨hlen, hrows⟩ := h
  have hsplit := List.length_eq_length_filter_add
    (l := b) (fun row => row.any fun c => c.isNone)
  have hfulleq : (b.filter fun row => !(row.any fun c => c.isNone)) =
      (b.filter fun row => row.all fun c => c.isSome) := by
    apply List.filter_congr
    intro row _
    rw [all_isSome_eq_not_any_isNone]
  rw [hfulleq] at hsplit
  have hkeeple : (b.filter fun row => row.any fun c => c.isNone).length ≤
      b.length := List.length_filter_le _ _
  simp only [clearLines]
  split_ifs with hc
  · refine ⟨by omega, ?_, hlen, hrows⟩
    have hkeep : (b.filter fun row => row.any fun c => c.isNone).length =
        b.length := by omega
    rw [List.replicate_zero, List.nil_append]
    exact (List.filter_eq_self.mpr (List.filter_length_eq_length.mp hkeep)).symm
  · refine ⟨by omega, rfl, ?_, ?_⟩
    · rw [List.length_append, List.length_replicate]
      omega
    · intro row hrow
      rcases List.mem_append.mp hrow with hmem | hmem
      · rw [List.eq_of_mem_replicate hmem, List.length_replicate]
      · exact hrows row (List.mem_of_mem_filter hmem)

/-- Witness for C3 at a concrete board whose bottom row is full. -/
theorem clearLines_spec_witness :
    WFBoard boardFullRow ∧
    ((clearLines boardFullRow).2 =
        (boardFullRow.filter fun row => row.all fun c => c.isSome).length ∧
      (clearLines boardFullRow).1 =
        List.replicate (clearLines boardFullRow).2
            (List.replicate BOARD_WIDTH none) ++
          (boardFullRow.filter fun row => row.any fun c => c.isNone) ∧
      WFBoard (clearLines boardFullRow).1) :=
  ⟨by decide, clearLines_spec boardFullRow (by decide)⟩

/-- C2: locking a piece whose shape has at least one occupied cell at an
absolute row < 0 transitions the status to `gameover` and leaves the board
exactly as before the lock attempt (no cell is written and no line is
cleared). -/
theorem finalizeLock_topOut (fallbackType : TetrominoType)
    (freshBag : List TetrominoType) (piece : ActivePiece) (g : GameState)
    (h : ∃ y, y < ((getRotations piece.type).getD piece.rotation []).length ∧
      ∃ x, x < (((getRotations piece.type).getD piece.rotation []).getD y
        []).length ∧
        matCell ((getRotations piece.type).getD piece.rotation []) y x ≠ 0 ∧
        piece.position.y + (y : Int) < 0) :
    (finalizeLock fallbackType freshBag piece g).status =
      GameStatus.gameover ∧
    (finalizeLock fallbackType freshBag piece g).board = g.board := by
  obtain ⟨y, hy, x, hx, hocc, hneg⟩ := h
  have htop : lockTopOut piece = true := by
    simp only [lockTopOut, List.any_eq_true, List.mem_range]
    exact ⟨y, hy, x, hx, decide_eq_true ⟨hocc, hneg⟩⟩
  simp [finalizeLock, htop]

/-- Witness for C2: a T piece at anchor row -1 (its occupied top cell lands
at row -1) locks to game over with the board untouched. -/
theorem finalizeLock_topOut_witness :
    (∃ y, y < ((getRotations pieceTopOut.type).getD pieceTopOut.rotation
        []).length ∧
      ∃ x, x < (((getRotations pieceTopOut.type).getD pieceTopOut.rotation
        []).getD y []).length ∧
        matCell ((getRotations pieceTopOut.type).getD pieceTopOut.rotation [])
          y x ≠ 0 ∧
        pieceTopOut.position.y + (y : Int) < 0) ∧
    ((finalizeLock TetrominoType.I ALL_TETROMINOES pieceTopOut stateW).status =
        GameStatus.gameover ∧
      (finalizeLock TetrominoType.I ALL_TETROMINOES pieceTopOut stateW).board =
        stateW.board) :=
  ⟨by decide,
   finalizeLock_topOut TetrominoType.I ALL_TETROMINOES pieceTopOut stateW
     (by decide)⟩

/-- C4: a lock clearing `k ≥ 1` lines adds exactly
`base(k) × (level + 1) + comboBonus × (level + 1)` points, where `base` maps
1/2/3/4 to 100/300/500/800 (and `k ≥ 5` falls back to `k × 200`) and the
combo bonus is `(streak - 1) × 50` exactly when the previous lock also
cleared lines (streak > 1); afterwards the level is
`⌊totalLines / 10⌋` and clearing exactly 4 lines increments the tetris
counter.  Clearing 0 lines resets the combo without changing the score. -/
theorem updateForClear_spec (s : GameStats) (k : Nat) (hk : 1 ≤ k) :
    (updateForClear k s).score = s.score +
        ((specBase k * (s.level + 1) : Nat) : Int) +
        (((if 1 < s.combo + 1 then (s.combo + 1 - 1) * COMBO_BONUS else 0) *
          (s.level + 1) : Nat) : Int) ∧
    (updateForClear k s).level = (s.lines + k) / LINES_PER_LEVEL ∧
    (updateForClear k s).tetrisCount =
      (if k = 4 then s.tetrisCount + 1 else s.tetrisCount) ∧
    (updateForClear 0 s).score = s.score ∧
    (updateForClear 0 s).combo = 0 := by
  have hk0 : ¬(k = 0) := by omega
  have hbase : lineScores.getD k (k * 200) = specBase k := by
    by_cases h1 : k = 1
    · subst h1; rfl
    by_cases h2 : k = 2
    · subst h2; rfl
    by_cases h3 : k = 3
    · subst h3; rfl
    by_cases h4 : k = 4
    · subst h4; rfl
    have h5 : lineScores.length ≤ k := by
      simp only [lineScores, List.length_cons, List.length_nil]
      omega
    rw [List.getD_eq_default _ _ h5]
    simp only [specBase, if_neg h1, if_neg h2, if_neg h3, if_neg h4]
  refine ⟨?_, ?_, ?_, ?_, ?_⟩
  · simp only [updateForClear, if_neg hk0, hbase]
  · simp only [updateForClear, if_neg hk0]
  · simp only [updateForClear, if_neg hk0]
  · simp [updateForClear]
  · simp [updateForClear]

/-- Witness for C4: clearing 1 line from the initial stats (level 0, no
combo) yields exactly 100 points. -/
theorem updateForClear_spec_witness :
    (updateForClear 1 createInitialStats).score = 100 := by
  have h := (updateForClear_spec createInitialStats 1 (by decide)).1
  rw [h]
  decide

/-- C5: in a playing state, rotation tries the kick offsets
(0,0), (-1,0), (1,0), (0,-1), (0,1) in exactly that order; if `canPlace`
fails at all five, the state is unchanged; otherwise the first feasible kick
is applied, the rotation index becomes `(rotation + dir) mod rotationCount`
and the position is translated by that kick. -/
theorem rotatePiece_spec (g : GameState) (a : ActivePiece) (dir : Int)
    (ha : g.active = some a) (hs : g.status = GameStatus.playing)
    (hd : dir = -1 ∨ dir = 1) :
    ((∀ j, j < 5 →
        canPlace g.board a (kicks.getD j { x := 0, y := 0 }) dir = false) →
      rotatePiece dir g = g) ∧
    (∀ i, i < 5 →
      canPlace g.board a (kicks.getD i { x := 0, y := 0 }) dir = true →
      (∀ j, j < i →
        canPlace g.board a (kicks.getD j { x := 0, y := 0 }) dir = false) →
      (rotatePiece dir g).active = some
        { a with
          rotation := (((a.rotation : Int) + dir) %
            ((getRotations a.type).length : Int)).toNat
          position := { x := a.position.x + (kicks.getD i { x := 0, y := 0 }).x,
                        y := a.position.y +
                          (kicks.getD i { x := 0, y := 0 }).y } }) := by
  constructor
  · intro hall
    have h0 := hall 0 (by omega)
    have h1 := hall 1 (by omega)
    have h2 := hall 2 (by omega)
    have h3 := hall 3 (by omega)
    have h4 := hall 4 (by omega)
    simp only [kicks, List.getD_cons_zero, List.getD_cons_succ] at h0 h1 h2 h3 h4
    have hnone : (kicks.find? fun kick => canPlace g.board a kick dir) =
        none := by
      rw [List.find?_eq_none]
      intro x hx
      fin_cases hx <;> simp [h0, h1, h2, h3, h4]
    simp [rotatePiece, ha, hs, hnone]
  · intro i hi hgood hprev
    have hp : ∀ j, j < i →
        canPlace g.board a (kicks.getD j { x := 0, y := 0 }) dir = false :=
      hprev
    interval_cases i <;>
      simp only [kicks, List.getD_cons_zero, List.getD_cons_succ] at hgood
    · simp [rotatePiece, ha, hs, kicks, List.find?_cons, hgood,
        Int.add_emod_self]
    · have e0 := hp 0 (by omega)
      simp only [kicks, List.getD_cons_zero, List.getD_cons_succ] at e0
      simp [rotatePiece, ha, hs, kicks, List.find?_cons, e0, hgood,
        Int.add_emod_self]
    · have e0 := hp 0 (by omega)
      have e1 := hp 1 (by omega)
      simp only [kicks, List.getD_cons_zero, List.getD_cons_succ] at e0 e1
      simp [rotatePiece, ha, hs, kicks, List.find?_cons, e0, e1, hgood,
        Int.add_emod_self]
    · have e0 := hp 0 (by omega)
      have e1 := hp 1 (by omega)
      have e2 := hp 2 (by omega)
      simp only [kicks, List.getD_cons_zero, List.getD_cons_succ] at e0 e1 e2
      simp [rotatePiece, ha, hs, kicks, List.find?_cons, e0, e1, e2, hgood,
        Int.add_emod_self]
    · have e0 := hp 0 (by omega)
      have e1 := hp 1 (by omega)
      have e2 := hp 2 (by omega)
      have e3 := hp 3 (by omega)
      simp only [kicks, List.getD_cons_zero, List.getD_cons_succ] at e0 e1 e2 e3
      simp [rotatePiece, ha, hs, kicks, List.find?_cons, e0, e1, e2, e3,
        hgood, Int.add_emod_self]

/-- Witness for C5: on the empty board, rotating the spawn T piece clockwise
succeeds at the first kick (0,0). -/
theorem rotatePiece_spec_witness :
    (rotatePiece 1 stateW).active =
      some { type := TetrominoType.T, rotation := 1,
             position := { x := 3, y := 0 } } := by
  have h := (rotatePiece_spec stateW pieceW 1 rfl rfl (Or.inr rfl)).2 0
    (by omega) (by decide) (fun j hj => absurd hj (Nat.not_lt_zero j))
  rw [h]
  decide

theorem pieceAt_zero (p : ActivePiece) : pieceAt p 0 = p := by
  simp [pieceAt]

theorem pieceMatrix_pieceAt (p : ActivePiece) (d : Int) (s : Int) :
    pieceMatrix (pieceAt p d) s = pieceMatrix p s := rfl

/-- Every rotation state of every piece type has an occupied cell (within the
4×4 bounding box). -/
theorem shape_has_cell (t : TetrominoType) (r : Nat)
    (hr : r < (getRotations t).length) :
    ∃ y, y < 4 ∧ ∃ x, x < 4 ∧
      matCell ((getRotations t).getD r []) y x ≠ 0 := by
  revert hr
  revert r
  cases t <;> decide

/-- With no rotation shift and an in-range rotation index, `canPlace` reads
the piece's own rotation matrix. -/
theorem pieceMatrix_zero (p : ActivePiece)
    (hr : p.rotation < (getRotations p.type).length) :
    pieceMatrix p 0 = (getRotations p.type).getD p.rotation [] := by
  have h1 : (p.rotation : Int) + 0 + ((getRotations p.type).length : Int) =
      (p.rotation : Int) + ((getRotations p.type).length : Int) := by ring
  have hidx : (((p.rotation : Int) + 0 + ((getRotations p.type).length : Int)) %
      ((getRotations p.type).length : Int)).toNat = p.rotation := by
    rw [h1, Int.add_emod_self,
      Int.emod_eq_of_lt (by positivity) (by exact_mod_cast hr)]
    simp
  simp only [pieceMatrix]
  rw [hidx]

/-- Unfolding of the descent loop: after `descend` with any fuel, the piece
has moved down by some `d ≤ fuel`, every accepted intermediate step satisfied
`canPlace`, and if the fuel was not exhausted the next step fails. -/
theorem descend_spec (b : Board) (fuel : Nat) (p : ActivePiece) :
    ∃ d, d ≤ fuel ∧
      descend b fuel p = pieceAt p d ∧
      (∀ i : Nat, i < d →
        canPlace b (pieceAt p i) { x := 0, y := 1 } 0 = true) ∧
      (d < fuel →
        canPlace b (pieceAt p d) { x := 0, y := 1 } 0 = false) := by
  induction fuel generalizing p with
  | zero =>
    exact ⟨0, Nat.le_refl 0, by simp [descend, pieceAt_zero],
      fun i hi => absurd hi (Nat.not_lt_zero i),
      fun h => absurd h (by omega)⟩
  | succ n ih =>
    by_cases hc : canPlace b p { x := 0, y := 1 } 0 = true
    · obtain ⟨d, hdle, heq, hall, hfail⟩ := ih (pieceAt p 1)
      have hstep : descend b (n + 1) p = descend b n (pieceAt p 1) := by
        simp only [descend, if_pos hc]
        rfl
      have hnest : ∀ k : Int, pieceAt (pieceAt p 1) k = pieceAt p (1 + k) := by
        intro k
        simp [pieceAt, add_assoc]
      refine ⟨d + 1, by omega, ?_, ?_, ?_⟩
      · rw [hstep, heq, hnest]
        congr 1
        push_cast
        ring
      · intro i hi
        cases i with
        | zero => simpa [pieceAt_zero] using hc
        | succ j =>
          have h2 := hall j (by omega)
          rw [hnest] at h2
          have h3 : (1 : Int) + (j : Int) = ((j + 1 : Nat) : Int) := by
            push_cast
            ring
          rw [h3] at h2
          exact h2
      · intro hlt
        have h2 := hfail (by omega)
        rw [hnest] at h2
        have h3 : (1 : Int) + (d : Int) = ((d + 1 : Nat) : Int) := by
          push_cast
          ring
        rw [h3] at h2
        exact h2
    · refine ⟨0, by omega, ?_, fun i hi => absurd hi (Nat.not_lt_zero i),
        fun _ => ?_⟩
      · simp [descend, if_neg hc, pieceAt_zero]
      · simp only [Nat.cast_zero, pieceAt_zero]
        exact Bool.eq_false_iff.mpr hc

/-- C7: in a playing state, `hardDrop` descends the active piece by the
maximal distance `d` (every intermediate one-row descent satisfies
`canPlace` and the descent to row `d + 1` fails), adds exactly
`d × 2 × 3` points, increments the hard-drop counter by one, and immediately
locks the piece at the resting position (no lock-delay timer is involved:
the lock happens in the same operation). -/
theorem hardDrop_spec (fb : TetrominoType) (bag : List TetrominoType)
    (g : GameState) (a : ActivePiece) (ha : g.active = some a)
    (hs : g.status = GameStatus.playing)
    (hr : a.rotation < (getRotations a.type).length) :
    ∃ d : Nat,
      (∀ i : Nat, i < d →
        canPlace g.board (pieceAt a i) { x := 0, y := 1 } 0 = true) ∧
      canPlace g.board (pieceAt a d) { x := 0, y := 1 } 0 = false ∧
      hardDrop fb bag g = finalizeLock fb bag (pieceAt a d)
        { g with stats := { g.stats with
            score := g.stats.score + ((d * DROP_SCORE * 3 : Nat) : Int),
            hardDrops := g.stats.hardDrops + 1 } } := by
  obtain ⟨d, hdle, heq, hall, hfail⟩ := descend_spec g.board (dropFuel a) a
  obtain ⟨y0, hy0, x0, hx0, hocc⟩ := shape_has_cell a.type a.rotation hr
  have hmat : pieceMatrix a 0 = (getRotations a.type).getD a.rotation [] :=
    pieceMatrix_zero a hr
  have hfalse : canPlace g.board (pieceAt a d) { x := 0, y := 1 } 0 = false := by
    rcases Nat.lt_or_ge d (dropFuel a) with hlt | hge
    · exact hfail hlt
    · have hdeq : d = dropFuel a := Nat.le_antisymm hdle hge
      rw [Bool.eq_false_iff]
      intro htrue
      rw [canPlace_true_iff] at htrue
      have hocc2 : matCell (pieceMatrix (pieceAt a d) 0) y0 x0 ≠ 0 := by
        rw [pieceMatrix_pieceAt, hmat]
        exact hocc
      have hbad := htrue y0 x0 hocc2
      apply hbad
      right; right; left
      show (BOARD_HEIGHT : Int) ≤ (a.position.y + (d : Int)) + (y0 : Int) + 1
      have hfuel : d = (24 - a.position.y).toNat := hdeq
      simp only [BOARD_HEIGHT]
      omega
  refine ⟨d, hall, hfalse, ?_⟩
  simp only [hardDrop, ha, hs, if_pos, reduceIte]
  rw [heq]
  have hdist : ((pieceAt a (d : Int)).position.y - a.position.y).toNat = d := by
    simp [pieceAt]
  rw [hdist]

/-- Witness for C7: hard-dropping the spawn T piece on the empty board. -/
theorem hardDrop_spec_witness :
    ∃ d : Nat,
      (∀ i : Nat, i < d →
        canPlace stateW.board (pieceAt pieceW i) { x := 0, y := 1 } 0 = true) ∧
      canPlace stateW.board (pieceAt pieceW d) { x := 0, y := 1 } 0 = false ∧
      hardDrop TetrominoType.I ALL_TETROMINOES stateW =
        finalizeLock TetrominoType.I ALL_TETROMINOES (pieceAt pieceW d)
          { stateW with stats := { stateW.stats with
              score := stateW.stats.score + ((d * DROP_SCORE * 3 : Nat) : Int),
              hardDrops := stateW.stats.hardDrops + 1 } } :=
  hardDrop_spec TetrominoType.I ALL_TETROMINOES stateW pieceW rfl rfl
    (by decide)

theorem count_set {α : Type} [DecidableEq α] (l : List α) (i : Nat)
    (a b x : α) (h : l[i]? = some a) :
    (l.set i b).count x + (if x = a then 1 else 0) =
      l.count x + (if x = b then 1 else 0) := by
  induction l generalizing i with
  | nil => simp at h
  | cons c t ih =>
    cases i with
    | zero =>
      simp only [List.getElem?_cons_zero, Option.some.injEq] at h
      subst h
      simp only [List.set_cons_zero, List.count_cons, beq_iff_eq]
      split_ifs <;> first | omega | (subst_vars; simp_all)
    | succ k =>
      simp only [List.getElem?_cons_succ] at h
      have h2 := ih k h
      simp only [List.set_cons_succ, List.count_cons, beq_iff_eq]
      omega

/-- A Fisher-Yates swap step permutes the list. -/
theorem listSwap_perm {α : Type} [DecidableEq α] (l : List α) (i j : Nat) :
    (listSwap l i j).Perm l := by
  unfold listSwap
  split
  · next a b h1 h2 =>
    rw [List.perm_iff_count]
    intro x
    have hjlen : j < l.length := by
      rcases List.getElem?_eq_some.mp h2 with ⟨hl, _⟩
      exact hl
    have hstep1 := count_set l i a b x h1
    by_cases hij : i = j
    · subst hij
      have hab : a = b := by
        rw [h1] at h2
        exact (Option.some.inj h2)
      subst hab
      have h2set : (l.set i a)[i]? = some a :=
        List.getElem?_set_eq_of_lt a (by simpa using hjlen)
      have hstep2 := count_set (l.set i a) i a a x h2set
      omega
    · have h2set : (l.set i b)[j]? = some b := by
        rw [List.getElem?_set_ne (by omega)]
        exact h2
      have hstep2 := count_set (l.set i b) j b a x h2set
      omega
  · exact List.Perm.refl l

/-- Each generated bag is a rearrangement of the 7 types, whatever the random
draws were. -/
theorem generateBag_perm (rand : Nat → Nat) :
    (generateBag rand).Perm ALL_TETROMINOES := by
  unfold generateBag
  simp only [List.foldl_cons, List.foldl_nil]
  exact (listSwap_perm _ 1 _).trans ((listSwap_perm _ 2 _).trans
    ((listSwap_perm _ 3 _).trans ((listSwap_perm _ 4 _).trans
    ((listSwap_perm _ 5 _).trans (listSwap_perm ALL_TETROMINOES 6 _)))))

/-- C8: for every outcome of the random draws, `generateBag` returns a
permutation of the 7 piece types: 7 entries, each type exactly once, so no
type repeats within one bag. -/
theorem generateBag_spec (rand : Nat → Nat) :
    (generateBag rand).Perm ALL_TETROMINOES ∧
    (generateBag rand).length = 7 ∧
    ∀ t : TetrominoType, (generateBag rand).count t = 1 := by
  have hp := generateBag_perm rand
  refine ⟨hp, ?_, ?_⟩
  · rw [hp.length_eq]
    rfl
  · intro t
    rw [hp.count_eq]
    cases t <;> rfl

/-- C9: the queue starts with two concatenated 7-bags (14 entries), and every
spawn (which pops at most one type and appends a fresh 7-bag when fewer than
7 remain) leaves at least 7 upcoming types, so the queue never runs dry. -/
theorem queue_never_dry :
    (∀ r1 r2 : Nat → Nat, (initialState r1 r2).queue.length = 14) ∧
    (∀ (fb : TetrominoType) (r : Nat → Nat) (ft : Option TetrominoType)
      (g : GameState),
      7 ≤ (spawnPiece fb (generateBag r) ft g).queue.length) := by
  have hbag : ∀ r : Nat → Nat, (generateBag r).length = 7 := fun r => by
    rw [(generateBag_perm r).length_eq]
    rfl
  constructor
  · intro r1 r2
    show (generateBag r1 ++ generateBag r2).length = 14
    rw [List.length_append, hbag r1, hbag r2]
  · intro fb r ft g
    cases ft <;>
      simp only [spawnPiece] <;>
      split_ifs with h <;>
      first
      | (rw [List.length_append, hbag r]; omega)
      | omega

theorem updateForClear_score_le (k : Nat) (s : GameStats) :
    s.score ≤ (updateForClear k s).score := by
  have key : ∀ A B : Nat, s.score ≤ s.score + (A : Int) + (B : Int) := by
    intro A B
    omega
  unfold updateForClear
  split_ifs <;> first | exact le_refl _ | exact key _ _

theorem spawnPiece_score (fb : TetrominoType) (bag : List TetrominoType)
    (ft : Option TetrominoType) (g : GameState) :
    (spawnPiece fb bag ft g).stats.score = g.stats.score := rfl

theorem finalizeLock_score_le (fb : TetrominoType)
    (bag : List TetrominoType) (p : ActivePiece) (g : GameState) :
    g.stats.score ≤ (finalizeLock fb bag p g).stats.score := by
  unfold finalizeLock
  split_ifs with h
  · exact le_refl _
  · rw [spawnPiece_score]
    show g.stats.score ≤ (if 0 < (clearLines _).2
      then updateForClear (clearLines _).2 g.stats
      else { g.stats with combo := 0 }).score
    split_ifs with h2
    · exact updateForClear_score_le _ _
    · exact le_refl _

theorem dropPiece_score_le (soft forceLock : Bool) (fb : TetrominoType)
    (bag : List TetrominoType) (g : GameState) :
    g.stats.score ≤ (dropPiece soft forceLock fb bag g).stats.score := by
  have key : ∀ A : Nat, g.stats.score ≤ g.stats.score + (A : Int) := by
    intro A
    omega
  unfold dropPiece
  split
  · exact le_refl _
  · split_ifs <;>
      first
        | exact le_refl _
        | exact finalizeLock_score_le fb bag _ g
        | exact key _

theorem lockDelayExpire_score_le (fb : TetrominoType)
    (bag : List TetrominoType) (g : GameState) :
    g.stats.score ≤ (lockDelayExpire fb bag g).stats.score := by
  unfold lockDelayExpire
  split
  · exact le_refl _
  · split_ifs <;>
      first
        | exact le_refl _
        | exact finalizeLock_score_le fb bag _ g

theorem hardDrop_score_le (fb : TetrominoType) (bag : List TetrominoType)
    (g : GameState) : g.stats.score ≤ (hardDrop fb bag g).stats.score := by
  have key : ∀ A : Nat, g.stats.score ≤ g.stats.score + (A : Int) := by
    intro A
    omega
  unfold hardDrop
  split
  · exact le_refl _
  · split_ifs with h1
    · exact le_trans (key _) (finalizeLock_score_le fb bag _ _)
    · exact le_refl _

theorem movePiece_score (dir : Int) (g : GameState) :
    (movePiece dir g).stats.score = g.stats.score := by
  unfold movePiece
  split
  · rfl
  · split_ifs <;> rfl

theorem rotatePiece_score (dir : Int) (g : GameState) :
    (rotatePiece dir g).stats.score = g.stats.score := by
  unfold rotatePiece
  split
  · rfl
  · split_ifs with h1
    · split <;> rfl
    · rfl

theorem holdPiece_score (fb : TetrominoType) (bag : List TetrominoType)
    (g : GameState) : (holdPiece fb bag g).stats.score = g.stats.score := by
  unfold holdPiece
  split
  · rfl
  · split_ifs with h1
    · cases g.hold <;> rfl
    · rfl

theorem togglePause_score (g : GameState) :
    (togglePause g).stats.score = g.stats.score := by
  unfold togglePause
  split <;> rfl

theorem applyOp_score_le (op : EngineOp) (g : GameState) :
    g.stats.score ≤ (applyOp op g).stats.score := by
  cases op with
  | moveOp dir => exact le_of_eq (movePiece_score dir g).symm
  | rotateOp dir => exact le_of_eq (rotatePiece_score dir g).symm
  | softDropOp fb bag => exact dropPiece_score_le true false fb bag g
  | gravityOp fb bag => exact dropPiece_score_le false false fb bag g
  | hardDropOp fb bag => exact hardDrop_score_le fb bag g
  | holdOp fb bag => exact le_of_eq (holdPiece_score fb bag g).symm
  | lockExpireOp fb bag => exact lockDelayExpire_score_le fb bag g
  | pauseOp => exact le_of_eq (togglePause_score g).symm

theorem applyOps_score_nonneg (ops : List EngineOp) :
    ∀ g : GameState, 0 ≤ g.stats.score → 0 ≤ (applyOps ops g).stats.score := by
  induction ops with
  | nil => exact fun g h => h
  | cons op rest ih =>
    intro g h
    exact ih (applyOp op g) (le_trans h (applyOp_score_le op g))

/-- C10: the score never decreases within a session: every engine operation
(move, rotate, soft drop, gravity tick, hard drop, hold, lock-delay firing,
pause toggle — including the lock/clear/combo-reset bookkeeping they invoke)
leaves the score unchanged or strictly increases it; starting from the
initial score of 0, the score is non-negative after every sequence of
operations; and a game reset sets it back to exactly 0. -/
theorem score_monotone_nonneg :
    (∀ (g : GameState) (op : EngineOp),
      g.stats.score ≤ (applyOp op g).stats.score) ∧
    (∀ (ops : List EngineOp) (r1 r2 : Nat → Nat),
      0 ≤ (applyOps ops (initialState r1 r2)).stats.score) ∧
    (∀ (g : GameState) (r1 r2 : Nat → Nat),
      (resetGame r1 r2 g).stats.score = 0) :=
  ⟨fun g op => applyOp_score_le op g,
   fun ops r1 r2 => applyOps_score_nonneg ops (initialState r1 r2) (le_refl 0),
   fun _ _ _ => rfl⟩

/-- C6 (evaluation of the code at the failing input): in a playing state with
an empty hold slot and the hold flag clear, a single hold leaves
`hasHeld = false` — `spawnPiece` resets the flag (source line 324) after
`holdPiece` set it (line 674) — and leaves `active = none` — `holdPiece`
clears the active piece (line 683) after `spawnPiece` stored the newly
spawned piece (line 316).  So no per-piece-lifetime flag blocks a second
hold, and the swapped-in piece does not remain the active piece, contrary to
the claim. -/
theorem holdPiece_flag_bug :
    (holdPiece TetrominoType.I ALL_TETROMINOES stateW).hasHeld = false ∧
    (holdPiece TetrominoType.I ALL_TETROMINOES stateW).active = none := by
  constructor <;> rfl

end TetrisGame
